import Mathlib

/-!
Shallow embedding of the multiboot2 repository fragments relevant to the
framebuffer information tag (src/multiboot2/src/framebuffer.rs) and the
header terminator tag (src/multiboot2-header/src/end.rs), together with
theorems checking the natural-language specification against them.

Machine integers are modelled as natural numbers; bytes carry the
invariant value < 256 as an explicit hypothesis where it matters.
Memory behind a raw pointer is modelled as a total function from
offsets to byte values, so that the unchecked pointer reads of the
source are visible in the model (a read past the validated region
returns whatever the ambient memory holds there).
-/

namespace Multiboot2

/-! Header-format side (multiboot2-header crate).

The enums HeaderTagType and HeaderTagFlag and the struct HeaderTagHeader
live in tags.rs, which is not among the provided sources. -/

/-- Modelled from the spec: the header-record kind discriminants (tags.rs is
not among the provided sources). The format reserves a dedicated sentinel
kind, here the constructor End, for the terminator record; every other
record kind has its own distinct discriminant, in particular the
entry-address request kind EntryAddress. -/
inductive HeaderTagType where
  | End
  | InformationRequest
  | Address
  | EntryAddress
  | ConsoleFlags
  | Framebuffer
  | ModuleAlign
  | EfiBS
  | EntryAddressEFI32
  | EntryAddressEFI64
  | Relocatable
deriving DecidableEq

/-- Modelled from the spec: the header-record flag values (tags.rs is not
among the provided sources). -/
inductive HeaderTagFlag where
  | Required
  | Optional
deriving DecidableEq

/-- Modelled from the spec: the common header-record prefix of kind
(16-bit), flags (16-bit) and size (32-bit); HeaderTagHeader::new stores the
three values and the accessors return them (tags.rs is not among the
provided sources). -/
structure HeaderTagHeader where
  typ : HeaderTagType
  flags : HeaderTagFlag
  size : ℕ
deriving DecidableEq

def HeaderTagHeader.new (typ : HeaderTagType) (flags : HeaderTagFlag) (size : ℕ) :
    HeaderTagHeader :=
  { typ := typ, flags := flags, size := size }

/-- Terminator tag of a multiboot2 header tag list, from end.rs. -/
structure EndHeaderTag where
  header : HeaderTagHeader
deriving DecidableEq

/-- Byte size of the EndHeaderTag struct: its repr(C) layout is the bare
8-byte header prefix (2 + 2 + 4), as asserted by the test in end.rs. -/
def sizeOfEndHeaderTag : ℕ := 2 + 2 + 4

/-- EndHeaderTag::new from end.rs: builds the header with
HeaderTagType::EntryAddress, HeaderTagFlag::Required and the struct size. -/
def EndHeaderTag.new : EndHeaderTag :=
  { header := HeaderTagHeader.new HeaderTagType.EntryAddress HeaderTagFlag.Required
      sizeOfEndHeaderTag }

def EndHeaderTag.typ (t : EndHeaderTag) : HeaderTagType := t.header.typ

def EndHeaderTag.flags (t : EndHeaderTag) : HeaderTagFlag := t.header.flags

def EndHeaderTag.size (t : EndHeaderTag) : ℕ := t.header.size

/-! Information-record side (multiboot2 crate), framebuffer.rs. -/

/-- Common information-record prefix: a 32-bit kind id and a 32-bit total
size (the TagHeader struct of the multiboot2 crate). -/
structure TagHeader where
  typ : ℕ
  size : ℕ
deriving DecidableEq

/-- Fixed metadata byte count of the framebuffer record, from
framebuffer.rs: size of TagTypeId (4) + 4 u32 fields + one u64 + one u16 +
two u8 fields. -/
def METADATA_SIZE : ℕ := 4 + 4 * 4 + 8 + 2 + 2 * 1

/-- Sequential byte reader over a raw pointer and an offset, from
framebuffer.rs. The memory behind the pointer is modelled as a total
function from absolute offsets to byte values; base is the pointer value. -/
structure Reader where
  mem : ℕ → ℕ
  base : ℕ
  off : ℕ

/-- Reader::read_u8: returns the byte at the current offset and advances
the offset by one. -/
def Reader.read_u8 (r : Reader) : ℕ × Reader :=
  (r.mem (r.base + r.off), { r with off := r.off + 1 })

/-- Reader::read_u16: two read_u8 calls, low byte or-ed with the high byte
shifted left by 8. -/
def Reader.read_u16 (r : Reader) : ℕ × Reader :=
  let p0 := r.read_u8
  let p1 := p0.2.read_u8
  (p0.1 ||| p1.1 <<< 8, p1.2)

/-- Reader::read_u32: two read_u16 calls, low half or-ed with the high half
shifted left by 16. -/
def Reader.read_u32 (r : Reader) : ℕ × Reader :=
  let p0 := r.read_u16
  let p1 := p0.2.read_u16
  (p0.1 ||| p1.1 <<< 16, p1.2)

/-- Reader::current_address: the pointer value plus the current offset. -/
def Reader.current_address (r : Reader) : ℕ :=
  r.base + r.off

/-- Error carrying the raw discriminant byte when it names no known
framebuffer type, from framebuffer.rs. -/
structure UnknownFramebufferType where
  val : ℕ
deriving DecidableEq

/-- Internal discriminant enum of framebuffer.rs with values
Indexed = 0, RGB = 1, Text = 2. -/
inductive FramebufferTypeId where
  | Indexed
  | RGB
  | Text
deriving DecidableEq

/-- TryFrom for u8 of framebuffer.rs: 0, 1 and 2 name the three known
discriminants; every other value is the UnknownFramebufferType error
carrying the raw value. -/
def FramebufferTypeId.try_from (value : ℕ) :
    Except UnknownFramebufferType FramebufferTypeId :=
  if value = 0 then Except.ok FramebufferTypeId.Indexed
  else if value = 1 then Except.ok FramebufferTypeId.RGB
  else if value = 2 then Except.ok FramebufferTypeId.Text
  else Except.error { val := value }

/-- Palette entry of three byte components, from framebuffer.rs;
repr(C) and the size test there make it exactly 3 contiguous bytes. -/
structure FramebufferColor where
  red : ℕ
  green : ℕ
  blue : ℕ
deriving DecidableEq

/-- Bit-field descriptor (position and size bytes) of one color channel,
from framebuffer.rs. -/
structure FramebufferField where
  position : ℕ
  size : ℕ
deriving DecidableEq

/-- Parsed framebuffer payload, from framebuffer.rs. The Indexed palette
slice view is denoted by the list of the colors it makes visible. -/
inductive FramebufferType where
  | Indexed (palette : List FramebufferColor)
  | RGB (red green blue : FramebufferField)
  | Text
deriving DecidableEq

/-- Denotation of slice::from_raw_parts at byte offset start with n
FramebufferColor elements: entry i occupies the three bytes at offsets
start + 3*i .. start + 3*i + 2 of the memory, with no bound applied. -/
def paletteView (mem : ℕ → ℕ) (start n : ℕ) : List FramebufferColor :=
  (List.range n).map fun i =>
    { red := mem (start + 3 * i)
      green := mem (start + 3 * i + 1)
      blue := mem (start + 3 * i + 2) }

/-- FramebufferTag of framebuffer.rs: the fixed metadata fields followed by
the dynamically sized trailing buffer. The buffer and whatever memory lies
after it are modelled by mem (offset 0 is the first buffer byte); bufLen is
the validated buffer length (dst_len of the header). -/
structure FramebufferTag where
  header : TagHeader
  address : ℕ
  pitch : ℕ
  width : ℕ
  height : ℕ
  bpp : ℕ
  type_no : ℕ
  reserved : ℕ
  mem : ℕ → ℕ
  bufLen : ℕ

/-- FramebufferTag::buffer_type from framebuffer.rs: dispatch on the stored
discriminant byte; Indexed reads a 4-byte count and builds the palette view
of that many entries at the reader's current address without checking the
count against bufLen; RGB reads six bytes into three field descriptors;
Text reads nothing. -/
def FramebufferTag.buffer_type (t : FramebufferTag) :
    Except UnknownFramebufferType FramebufferType :=
  let r : Reader := { mem := t.mem, base := 0, off := 0 }
  match FramebufferTypeId.try_from t.type_no with
  | Except.error e => Except.error e
  | Except.ok FramebufferTypeId.Indexed =>
    let p := r.read_u32
    Except.ok (FramebufferType.Indexed (paletteView t.mem p.2.current_address p.1))
  | Except.ok FramebufferTypeId.RGB =>
    let p0 := r.read_u8
    let p1 := p0.2.read_u8
    let p2 := p1.2.read_u8
    let p3 := p2.2.read_u8
    let p4 := p3.2.read_u8
    let p5 := p4.2.read_u8
    Except.ok (FramebufferType.RGB
      { position := p0.1, size := p1.1 }
      { position := p2.1, size := p3.1 }
      { position := p4.1, size := p5.1 })
  | Except.ok FramebufferTypeId.Text => Except.ok FramebufferType.Text

/-- TagTrait::dst_len for FramebufferTag from framebuffer.rs: asserts that
the declared size is at least METADATA_SIZE and returns the difference.
The failed assertion (a Rust panic, not a returned error) is modelled as
none. -/
def FramebufferTag.dst_len (header : TagHeader) : Option ℕ :=
  if METADATA_SIZE ≤ header.size then some (header.size - METADATA_SIZE) else none

/-- Modelled from the spec: the record walker's size validation (the walker
lives outside the provided sources). A record whose declared size is below
the minimal 8-byte record prefix is rejected as MalformedRecord; this
predicate is true exactly when that rejection fires. -/
def walkerMalformed (h : TagHeader) : Bool :=
  h.size < 8

/-- Byte list actually covered by the validated buffer slice: the slice
comparison of the derived PartialEq compares exactly these bytes. -/
def FramebufferTag.bufferBytes (t : FramebufferTag) : List ℕ :=
  (List.range t.bufLen).map t.mem

/-- PartialEq::eq for FramebufferTag from framebuffer.rs: compares header,
address, pitch, width, height, bpp, type_no and the buffer slice; the
reserved field is not compared. -/
def FramebufferTag.beq (a b : FramebufferTag) : Bool :=
  decide (a.header = b.header)
    && decide (a.address = b.address)
    && decide (a.pitch = b.pitch)
    && decide (a.width = b.width)
    && decide (a.height = b.height)
    && decide (a.bpp = b.bpp)
    && decide (a.type_no = b.type_no)
    && decide (a.bufferBytes = b.bufferBytes)

/-! Builder side of framebuffer.rs (feature builder). -/

/-- Little-endian byte list of length k for the value n, the model of
to_ne_bytes on a k-byte machine integer. -/
def leBytes (k n : ℕ) : List ℕ :=
  (List.range k).map fun i => n / 256 ^ i % 256

/-- Value denoted by a little-endian byte list. -/
def leVal (l : List ℕ) : ℕ :=
  l.foldr (fun b acc => b + 256 * acc) 0

/-- AsBytes for FramebufferColor: its three component bytes in order. -/
def FramebufferColor.as_bytes (c : FramebufferColor) : List ℕ :=
  [c.red, c.green, c.blue]

/-- AsBytes for FramebufferField: its position byte then its size byte. -/
def FramebufferField.as_bytes (f : FramebufferField) : List ℕ :=
  [f.position, f.size]

/-- FramebufferType::to_bytes from framebuffer.rs: the discriminant byte,
two reserved zero bytes, then the variant payload; the palette length is
written as a u32 (len as u32 truncates modulo 2 ^ 32) followed by every
palette entry in order. -/
def FramebufferType.to_bytes : FramebufferType → List ℕ
  | FramebufferType.Indexed palette =>
    [0] ++ leBytes 2 0 ++ leBytes 4 (palette.length % 2 ^ 32)
      ++ palette.flatMap FramebufferColor.as_bytes
  | FramebufferType.RGB red green blue =>
    [1] ++ leBytes 2 0 ++ red.as_bytes ++ green.as_bytes ++ blue.as_bytes
  | FramebufferType.Text =>
    [2] ++ leBytes 2 0

/-- Numeric id of the framebuffer information tag kind (TagType::
Framebuffer); the TagType enum lives outside the provided sources and the
id's value is irrelevant to the claims below. -/
def framebufferTagId : ℕ := 8

/-- FramebufferTag::new from framebuffer.rs, at the byte level: the native
byte encodings of address, pitch, width, height and bpp followed by the
variant bytes, behind an 8-byte record prefix. The new_boxed wrapper that
prepends the prefix and computes the declared size is outside the provided
sources and is modelled from the spec (declared size = prefix + content). -/
def newFramebufferBytes (address pitch width height bpp : ℕ)
    (buffer_type : FramebufferType) : List ℕ :=
  let content := leBytes 8 address ++ leBytes 4 pitch ++ leBytes 4 width
    ++ leBytes 4 height ++ [bpp] ++ buffer_type.to_bytes
  leBytes 4 framebufferTagId ++ leBytes 4 ((8 + content.length) % 2 ^ 32) ++ content

/-- Modelled from the spec: the generic tag cast that turns the raw record
bytes into a typed FramebufferTag view following the declared layout
(8-byte prefix, address 8, pitch 4, width 4, height 4, bpp 1, type 1,
reserved 2, then the trailing buffer); the cast itself lives outside the
provided sources. Memory past the record is modelled as zero bytes. -/
def castFramebufferTag (bytes : List ℕ) : FramebufferTag :=
  { header := { typ := leVal (List.take 4 bytes), size := leVal (List.take 4 (List.drop 4 bytes)) }
    address := leVal (List.take 8 (List.drop 8 bytes))
    pitch := leVal (List.take 4 (List.drop 16 bytes))
    width := leVal (List.take 4 (List.drop 20 bytes))
    height := leVal (List.take 4 (List.drop 24 bytes))
    bpp := leVal (List.take 1 (List.drop 28 bytes))
    type_no := leVal (List.take 1 (List.drop 29 bytes))
    reserved := leVal (List.take 2 (List.drop 30 bytes))
    mem := fun i => (List.drop 32 bytes).getD i 0
    bufLen := bytes.length - 32 }

/-- FramebufferTag::new from framebuffer.rs: build the record bytes and
view them as a FramebufferTag. -/
def FramebufferTag.new (address pitch width height bpp : ℕ)
    (buffer_type : FramebufferType) : FramebufferTag :=
  castFramebufferTag (newFramebufferBytes address pitch width height bpp buffer_type)

/-- Well-formedness of a variant on the builder side: an Indexed palette
must have a length representable as a u32 (a Rust slice longer than that
would already overflow the record's u32 size field). -/
def FramebufferType.WF : FramebufferType → Prop
  | FramebufferType.Indexed palette => palette.length < 2 ^ 32
  | _ => True

/-! Arithmetic helper: or-ing a value below 2 ^ k with a left shift by k is
plain addition, which turns the or/shift compositions of the reader into
little-endian place-value sums. -/

theorem lor_shiftLeft_eq_add (k : ℕ) :
    ∀ a b : ℕ, a < 2 ^ k → a ||| b <<< k = a + 2 ^ k * b := by
  induction k with
  | zero =>
    intro a b ha
    have ha0 : a = 0 := by omega
    subst ha0
    simp [Nat.shiftLeft_eq]
  | succ k ih =>
    intro a b ha
    have hd : a / 2 < 2 ^ k := by
      have h2 : a < 2 ^ k * 2 := by
        have := pow_succ 2 k
        omega
      omega
    have hbit : Nat.bit (Nat.bodd a) (Nat.div2 a) = a := Nat.bit_decomp a
    have hsh : b <<< (k + 1) = Nat.bit false (b <<< k) := by
      simp [Nat.shiftLeft_eq, Nat.bit_val, pow_succ]
      ring
    calc a ||| b <<< (k + 1)
        = Nat.bit (Nat.bodd a) (Nat.div2 a) ||| Nat.bit false (b <<< k) := by
          rw [hbit, hsh]
      _ = Nat.bit (Nat.bodd a || false) (Nat.div2 a ||| b <<< k) := Nat.lor_bit _ _ _ _
      _ = Nat.bit (Nat.bodd a) (a / 2 + 2 ^ k * b) := by
          rw [Bool.or_false, Nat.div2_val, ih (a / 2) b hd]
      _ = a + 2 ^ (k + 1) * b := by
          rw [Nat.bit_val]
          have hsplit : 2 * (a / 2) + (Nat.bodd a).toNat = a := by
            have h := Nat.bodd_add_div2 a
            rw [Nat.div2_val] at h
            omega
          have hp : 2 ^ (k + 1) * b = 2 * (2 ^ k * b) := by
            rw [pow_succ]
            ring
          omega

/-! Decoded forms of the reader operations on byte-valued memory. -/

theorem Reader.read_u8_eq (m : ℕ → ℕ) (base off : ℕ) :
    Reader.read_u8 { mem := m, base := base, off := off } =
      (m (base + off), { mem := m, base := base, off := off + 1 }) := rfl

theorem Reader.read_u16_eq (m : ℕ → ℕ) (base off : ℕ) (h0 : m (base + off) < 256) :
    Reader.read_u16 { mem := m, base := base, off := off } =
      (m (base + off) + 256 * m (base + off + 1),
        { mem := m, base := base, off := off + 2 }) := by
  simp only [Reader.read_u16, Reader.read_u8]
  rw [lor_shiftLeft_eq_add 8 _ _ (by simpa using h0)]
  simp only [Prod.mk.injEq, Reader.mk.injEq]
  refine ⟨?_, trivial⟩
  rw [show base + (off + 1) = base + off + 1 by omega]
  norm_num

theorem Reader.read_u32_eq (m : ℕ → ℕ) (base off : ℕ)
    (h0 : m (base + off) < 256) (h1 : m (base + off + 1) < 256)
    (h2 : m (base + off + 2) < 256) :
    Reader.read_u32 { mem := m, base := base, off := off } =
      (m (base + off) + 256 * m (base + off + 1) + 65536 * m (base + off + 2)
          + 16777216 * m (base + off + 3),
        { mem := m, base := base, off := off + 4 }) := by
  simp only [Reader.read_u32]
  rw [Reader.read_u16_eq m base off h0]
  rw [Reader.read_u16_eq m base (off + 2) (by
    have hidx : base + (off + 2) = base + off + 2 := by omega
    rw [hidx]; exact h2)]
  rw [lor_shiftLeft_eq_add 16 _ _ (by
    have h16 : (2 : ℕ) ^ 16 = 65536 := by norm_num
    omega)]
  simp only [Prod.mk.injEq, Reader.mk.injEq]
  refine ⟨?_, trivial⟩
  have h16 : (2 : ℕ) ^ 16 = 65536 := by norm_num
  have i2 : base + (off + 2) = base + off + 2 := by omega
  rw [h16, i2]
  rw [show base + off + 2 + 1 = base + off + 3 by omega]
  ring

/-! Little-endian encoding and decoding. -/

theorem leBytes_length (k n : ℕ) : (leBytes k n).length = k := by
  simp [leBytes]

theorem leBytes_succ (k n : ℕ) :
    leBytes (k + 1) n = n % 256 :: leBytes k (n / 256) := by
  unfold leBytes
  rw [List.range_succ_eq_map]
  simp only [List.map_cons, List.map_map]
  congr 1
  · simp
  · apply List.map_congr_left
    intro i _
    simp only [Function.comp_apply]
    have hp : (256 : ℕ) ^ (i + 1) = 256 * 256 ^ i := by
      rw [pow_succ]; ring
    rw [hp, Nat.div_div_eq_div_mul]

theorem leVal_cons (b : ℕ) (l : List ℕ) : leVal (b :: l) = b + 256 * leVal l := rfl

theorem leVal_leBytes (k : ℕ) : ∀ n : ℕ, n < 256 ^ k → leVal (leBytes k n) = n := by
  induction k with
  | zero =>
    intro n h
    have hn : n = 0 := by simpa using h
    subst hn
    rfl
  | succ k ih =>
    intro n h
    have hp : (256 : ℕ) ^ (k + 1) = 256 ^ k * 256 := pow_succ 256 k
    rw [leBytes_succ, leVal_cons, ih (n / 256) (by omega)]
    omega

theorem leBytes_getD_lt (k n i : ℕ) (h : i < k) : (leBytes k n).getD i 0 < 256 := by
  unfold leBytes
  rw [List.getD_eq_getElem _ _ (by simpa using h)]
  simp only [List.getElem_map, List.getElem_range]
  exact Nat.mod_lt _ (by norm_num)

theorem pow256_eq (k : ℕ) : (256 : ℕ) ^ k = 2 ^ (8 * k) := by
  rw [show (256 : ℕ) = 2 ^ 8 by norm_num, ← pow_mul]

/-! List plumbing for the record layout. -/

theorem drop_add_append (l1 l2 : List ℕ) (k j : ℕ) (h : l1.length = k) :
    List.drop (k + j) (l1 ++ l2) = List.drop j l2 := by
  subst h
  exact List.drop_append j

theorem take_all_append (l1 l2 : List ℕ) (k : ℕ) (h : l1.length = k) :
    List.take k (l1 ++ l2) = l1 :=
  List.take_left' h

/-! Recovering a palette from its serialized bytes. -/

theorem paletteView_zero (f : ℕ → ℕ) (s : ℕ) : paletteView f s 0 = [] := rfl

theorem paletteView_succ (f : ℕ → ℕ) (s n : ℕ) :
    paletteView f s (n + 1) =
      { red := f s, green := f (s + 1), blue := f (s + 2) } ::
        paletteView f (s + 3) n := by
  unfold paletteView
  rw [List.range_succ_eq_map, List.map_cons, List.map_map]
  have htail : ∀ i ∈ List.range n,
      ((fun i => FramebufferColor.mk (f (s + 3 * i)) (f (s + 3 * i + 1))
          (f (s + 3 * i + 2))) ∘ Nat.succ) i =
        FramebufferColor.mk (f (s + 3 + 3 * i)) (f (s + 3 + 3 * i + 1))
          (f (s + 3 + 3 * i + 2)) := by
    intro i _
    simp only [Function.comp_apply]
    rw [show s + 3 * Nat.succ i = s + 3 + 3 * i by omega]
  rw [List.map_congr_left htail]
  norm_num

theorem paletteView_length (f : ℕ → ℕ) (s n : ℕ) : (paletteView f s n).length = n := by
  simp [paletteView]

theorem paletteView_flat (p : List FramebufferColor) :
    ∀ (f : ℕ → ℕ) (s : ℕ),
      (∀ j, j < 3 * p.length →
        f (s + j) = (p.flatMap FramebufferColor.as_bytes).getD j 0) →
      paletteView f s p.length = p := by
  induction p with
  | nil =>
    intro f s _
    rfl
  | cons c rest ih =>
    intro f s h
    have hlc : (c :: rest).length = rest.length + 1 := List.length_cons c rest
    rw [hlc, paletteView_succ]
    have h0 := h 0 (by rw [hlc]; omega)
    have h1 := h 1 (by rw [hlc]; omega)
    have h2 := h 2 (by rw [hlc]; omega)
    simp only [List.flatMap_cons, FramebufferColor.as_bytes, List.cons_append,
      List.nil_append, List.getD_cons_zero, List.getD_cons_succ, Nat.add_zero] at h0 h1 h2
    congr 1
    · rw [h0, h1, h2]
    · apply ih
      intro j hj
      have hjj := h (3 + j) (by rw [hlc]; omega)
      rw [show s + (3 + j) = s + 3 + j by omega] at hjj
      rw [hjj, List.flatMap_cons]
      have hr := List.getD_append_right (FramebufferColor.as_bytes c)
        (rest.flatMap FramebufferColor.as_bytes) 0 (3 + j)
        (by simp [FramebufferColor.as_bytes])
      rw [hr]
      congr 1
      simp [FramebufferColor.as_bytes]

/-! Evaluation of buffer_type by discriminant. -/

theorem buffer_type_unknown (t : FramebufferTag)
    (h0 : t.type_no ≠ 0) (h1 : t.type_no ≠ 1) (h2 : t.type_no ≠ 2) :
    t.buffer_type = Except.error { val := t.type_no } := by
  unfold FramebufferTag.buffer_type FramebufferTypeId.try_from
  simp [h0, h1, h2]

theorem buffer_type_text (t : FramebufferTag) (h : t.type_no = 2) :
    t.buffer_type = Except.ok FramebufferType.Text := by
  unfold FramebufferTag.buffer_type FramebufferTypeId.try_from
  simp [h]

theorem buffer_type_rgb (t : FramebufferTag) (h : t.type_no = 1) :
    t.buffer_type = Except.ok (FramebufferType.RGB
      { position := t.mem 0, size := t.mem 1 }
      { position := t.mem 2, size := t.mem 3 }
      { position := t.mem 4, size := t.mem 5 }) := by
  unfold FramebufferTag.buffer_type FramebufferTypeId.try_from
  simp [h, Reader.read_u8]

theorem buffer_type_indexed (t : FramebufferTag) (h : t.type_no = 0)
    (h0 : t.mem 0 < 256) (h1 : t.mem 1 < 256) (h2 : t.mem 2 < 256) :
    t.buffer_type = Except.ok (FramebufferType.Indexed (paletteView t.mem 4
      (t.mem 0 + 256 * t.mem 1 + 65536 * t.mem 2 + 16777216 * t.mem 3))) := by
  have hr := Reader.read_u32_eq t.mem 0 0 (by simpa using h0) (by simpa using h1)
    (by simpa using h2)
  simp only [Nat.zero_add] at hr
  unfold FramebufferTag.buffer_type FramebufferTypeId.try_from
  simp [h, hr, Reader.current_address]

/-! Evaluation of the layout cast on serialized record bytes. -/

theorem leVal_take_one (l : List ℕ) : leVal (List.take 1 l) = l.getD 0 0 := by
  cases l <;> simp [leVal]

theorem pow256_eight : (256 : ℕ) ^ 8 = 2 ^ 64 := by
  rw [pow256_eq]

theorem pow256_four : (256 : ℕ) ^ 4 = 2 ^ 32 := by
  rw [pow256_eq]

theorem castFramebufferTag_eval (pre : List ℕ) (address pitch width height bpp : ℕ)
    (tb : List ℕ) (bytes : List ℕ)
    (hbytes : bytes = pre ++ (leBytes 8 address ++ (leBytes 4 pitch
      ++ (leBytes 4 width ++ (leBytes 4 height ++ ([bpp] ++ tb))))))
    (hpre : pre.length = 8)
    (ha : address < 2 ^ 64) (hp : pitch < 2 ^ 32) (hw : width < 2 ^ 32)
    (hh : height < 2 ^ 32) :
    (castFramebufferTag bytes).address = address ∧
    (castFramebufferTag bytes).pitch = pitch ∧
    (castFramebufferTag bytes).width = width ∧
    (castFramebufferTag bytes).height = height ∧
    (castFramebufferTag bytes).bpp = bpp ∧
    (castFramebufferTag bytes).type_no = tb.getD 0 0 ∧
    (∀ i, (castFramebufferTag bytes).mem i = (List.drop 3 tb).getD i 0) ∧
    (castFramebufferTag bytes).bufLen = tb.length - 3 := by
  have hdl8 : (leBytes 8 address).length = 8 := leBytes_length 8 address
  have hdlp : (leBytes 4 pitch).length = 4 := leBytes_length 4 pitch
  have hdlw : (leBytes 4 width).length = 4 := leBytes_length 4 width
  have hdlh : (leBytes 4 height).length = 4 := leBytes_length 4 height
  have e8 : List.drop 8 bytes = leBytes 8 address ++ (leBytes 4 pitch
      ++ (leBytes 4 width ++ (leBytes 4 height ++ ([bpp] ++ tb)))) := by
    rw [hbytes]
    exact List.drop_left' hpre
  have e16 : List.drop 16 bytes = leBytes 4 pitch
      ++ (leBytes 4 width ++ (leBytes 4 height ++ ([bpp] ++ tb))) := by
    rw [show (16 : ℕ) = 8 + 8 by norm_num, ← List.drop_drop, e8, List.drop_left' hdl8]
  have e20 : List.drop 20 bytes = leBytes 4 width
      ++ (leBytes 4 height ++ ([bpp] ++ tb)) := by
    rw [show (20 : ℕ) = 16 + 4 by norm_num, ← List.drop_drop, e16, List.drop_left' hdlp]
  have e24 : List.drop 24 bytes = leBytes 4 height ++ ([bpp] ++ tb) := by
    rw [show (24 : ℕ) = 20 + 4 by norm_num, ← List.drop_drop, e20, List.drop_left' hdlw]
  have e28 : List.drop 28 bytes = [bpp] ++ tb := by
    rw [show (28 : ℕ) = 24 + 4 by norm_num, ← List.drop_drop, e24, List.drop_left' hdlh]
  have e29 : List.drop 29 bytes = tb := by
    rw [show (29 : ℕ) = 28 + 1 by norm_num, ← List.drop_drop, e28]
    simp
  have e32 : List.drop 32 bytes = List.drop 3 tb := by
    rw [show (32 : ℕ) = 29 + 3 by norm_num, ← List.drop_drop, e29]
  have hb64 : address < 256 ^ 8 := by rw [pow256_eight]; exact ha
  have hb32p : pitch < 256 ^ 4 := by rw [pow256_four]; exact hp
  have hb32w : width < 256 ^ 4 := by rw [pow256_four]; exact hw
  have hb32h : height < 256 ^ 4 := by rw [pow256_four]; exact hh
  refine ⟨?_, ?_, ?_, ?_, ?_, ?_, ?_, ?_⟩
  · show leVal (List.take 8 (List.drop 8 bytes)) = address
    rw [e8, take_all_append _ _ 8 hdl8, leVal_leBytes 8 address hb64]
  · show leVal (List.take 4 (List.drop 16 bytes)) = pitch
    rw [e16, take_all_append _ _ 4 hdlp, leVal_leBytes 4 pitch hb32p]
  · show leVal (List.take 4 (List.drop 20 bytes)) = width
    rw [e20, take_all_append _ _ 4 hdlw, leVal_leBytes 4 width hb32w]
  · show leVal (List.take 4 (List.drop 24 bytes)) = height
    rw [e24, take_all_append _ _ 4 hdlh, leVal_leBytes 4 height hb32h]
  · show leVal (List.take 1 (List.drop 28 bytes)) = bpp
    rw [e28, take_all_append [bpp] tb 1 rfl]
    simp [leVal]
  · show leVal (List.take 1 (List.drop 29 bytes)) = tb.getD 0 0
    rw [e29, leVal_take_one]
  · intro i
    show (List.drop 32 bytes).getD i 0 = (List.drop 3 tb).getD i 0
    rw [e32]
  · show bytes.length - 32 = tb.length - 3
    rw [hbytes]
    simp only [List.length_append, List.length_cons, List.length_nil, hpre,
      leBytes_length]
    omega

/-! Builder byte shapes. -/

theorem newFramebufferBytes_shape (address pitch width height bpp : ℕ)
    (ft : FramebufferType) :
    ∃ pre : List ℕ, pre.length = 8 ∧
      newFramebufferBytes address pitch width height bpp ft =
        pre ++ (leBytes 8 address ++ (leBytes 4 pitch ++ (leBytes 4 width
          ++ (leBytes 4 height ++ ([bpp] ++ ft.to_bytes))))) := by
  refine ⟨leBytes 4 framebufferTagId ++ leBytes 4 ((8 + (leBytes 8 address
    ++ leBytes 4 pitch ++ leBytes 4 width ++ leBytes 4 height ++ [bpp]
    ++ ft.to_bytes).length) % 2 ^ 32), by simp [leBytes_length], ?_⟩
  unfold newFramebufferBytes
  simp [List.append_assoc]

theorem to_bytes_rgb_drop (red green blue : FramebufferField) :
    List.drop 3 (FramebufferType.RGB red green blue).to_bytes =
      [red.position, red.size, green.position, green.size,
        blue.position, blue.size] := rfl

theorem to_bytes_indexed_drop (p : List FramebufferColor) :
    List.drop 3 (FramebufferType.Indexed p).to_bytes =
      leBytes 4 (p.length % 2 ^ 32) ++ p.flatMap FramebufferColor.as_bytes := rfl

theorem leBytes_getD (k n i : ℕ) (h : i < k) :
    (leBytes k n).getD i 0 = n / 256 ^ i % 256 := by
  unfold leBytes
  rw [List.getD_eq_getElem _ _ (by simpa using h)]
  simp

/-- C4: every (address, pitch, width, height, bpp, variant) tuple survives a
round trip through FramebufferTag::new and the readback accessors
address(), pitch(), width(), height(), bpp(), buffer_type(), provided the
values fit their machine-integer fields (u64, u32, u32, u32; an Indexed
palette length must fit a u32, which any palette serializable into the
u32-sized record does). -/
theorem C4_new_roundtrip (address pitch width height bpp : ℕ)
    (ft : FramebufferType)
    (ha : address < 2 ^ 64) (hp : pitch < 2 ^ 32) (hw : width < 2 ^ 32)
    (hh : height < 2 ^ 32) (hft : ft.WF) :
    (FramebufferTag.new address pitch width height bpp ft).address = address ∧
    (FramebufferTag.new address pitch width height bpp ft).pitch = pitch ∧
    (FramebufferTag.new address pitch width height bpp ft).width = width ∧
    (FramebufferTag.new address pitch width height bpp ft).height = height ∧
    (FramebufferTag.new address pitch width height bpp ft).bpp = bpp ∧
    (FramebufferTag.new address pitch width height bpp ft).buffer_type
      = Except.ok ft := by
  obtain ⟨pre, hlen, hbytes⟩ := newFramebufferBytes_shape address pitch width height bpp ft
  have hcast := castFramebufferTag_eval pre address pitch width height bpp
    ft.to_bytes (newFramebufferBytes address pitch width height bpp ft)
    hbytes hlen ha hp hw hh
  have hnew : FramebufferTag.new address pitch width height bpp ft
      = castFramebufferTag (newFramebufferBytes address pitch width height bpp ft) := rfl
  rw [hnew]
  obtain ⟨hA, hP, hW, hH, hB, hT, hM, hL⟩ := hcast
  refine ⟨hA, hP, hW, hH, hB, ?_⟩
  cases ft with
  | Text =>
    exact buffer_type_text _ (by rw [hT]; rfl)
  | RGB red green blue =>
    rw [buffer_type_rgb _ (by rw [hT]; rfl)]
    simp only [hM, to_bytes_rgb_drop]
    rfl
  | Indexed p =>
    have hmem : ∀ i, (castFramebufferTag (newFramebufferBytes address pitch
        width height bpp (FramebufferType.Indexed p))).mem i =
        (leBytes 4 (p.length % 2 ^ 32) ++ p.flatMap FramebufferColor.as_bytes).getD i 0 :=
      fun i => (hM i).trans (by rw [to_bytes_indexed_drop])
    have hlt : p.length < 2 ^ 32 := hft
    have hfour : (leBytes 4 (p.length % 2 ^ 32)).length = 4 := leBytes_length 4 _
    have gv : ∀ i, i < 4 → (castFramebufferTag (newFramebufferBytes address pitch
        width height bpp (FramebufferType.Indexed p))).mem i =
        p.length % 2 ^ 32 / 256 ^ i % 256 := by
      intro i hi
      rw [hmem i, List.getD_append _ _ _ _ (by rw [hfour]; exact hi),
        leBytes_getD 4 _ i hi]
    have hb0 : (castFramebufferTag (newFramebufferBytes address pitch
        width height bpp (FramebufferType.Indexed p))).mem 0 < 256 := by
      rw [gv 0 (by norm_num)]; exact Nat.mod_lt _ (by norm_num)
    have hb1 : (castFramebufferTag (newFramebufferBytes address pitch
        width height bpp (FramebufferType.Indexed p))).mem 1 < 256 := by
      rw [gv 1 (by norm_num)]; exact Nat.mod_lt _ (by norm_num)
    have hb2 : (castFramebufferTag (newFramebufferBytes address pitch
        width height bpp (FramebufferType.Indexed p))).mem 2 < 256 := by
      rw [gv 2 (by norm_num)]; exact Nat.mod_lt _ (by norm_num)
    rw [buffer_type_indexed _ (by rw [hT]; rfl) hb0 hb1 hb2]
    have hsum : (castFramebufferTag (newFramebufferBytes address pitch
          width height bpp (FramebufferType.Indexed p))).mem 0
        + 256 * (castFramebufferTag (newFramebufferBytes address pitch
          width height bpp (FramebufferType.Indexed p))).mem 1
        + 65536 * (castFramebufferTag (newFramebufferBytes address pitch
          width height bpp (FramebufferType.Indexed p))).mem 2
        + 16777216 * (castFramebufferTag (newFramebufferBytes address pitch
          width height bpp (FramebufferType.Indexed p))).mem 3
        = p.length := by
      rw [gv 0 (by norm_num), gv 1 (by norm_num), gv 2 (by norm_num),
        gv 3 (by norm_num)]
      norm_num
      omega
    rw [hsum]
    have hview := paletteView_flat p (castFramebufferTag (newFramebufferBytes
        address pitch width height bpp (FramebufferType.Indexed p))).mem 4 ?_
    · rw [hview]
    · intro j hj
      rw [hmem (4 + j),
        List.getD_append_right _ _ _ _ (by rw [hfour]; omega)]
      rw [hfour]
      simp

/-! Claim theorems. -/

/-- C1 (code defect): EndHeaderTag::new stores HeaderTagType::EntryAddress —
the numeric kind of the entry-address request record, a different record
kind — instead of the dedicated End sentinel kind reserved for the
terminator, while flags (Required) and size (8) match the claim; typ(),
flags() and size() return exactly the stored values. -/
theorem C1_end_tag_uses_entry_address :
    EndHeaderTag.new.typ = HeaderTagType.EntryAddress ∧
    HeaderTagType.EntryAddress ≠ HeaderTagType.End ∧
    EndHeaderTag.new.flags = HeaderTagFlag.Required ∧
    EndHeaderTag.new.size = 8 :=
  ⟨rfl, by decide, rfl, rfl⟩

/-- C2 (code defect): at an Indexed framebuffer tag whose validated payload
holds only the 4 count bytes (count 2, so 6 palette bytes would be needed
but 0 remain), buffer_type performs no bounds check: it returns a 2-entry
palette whose bytes are read from memory beyond the validated buffer
(modelled 171 there) instead of reporting an error; its result type cannot
even express a MalformedRecord. -/
theorem C2_no_bounds_check :
    (FramebufferTag.mk { typ := 8, size := 36 } 0 0 0 0 0 0 0
        (fun i => if i < 4 then (if i = 0 then 2 else 0) else 171) 4).buffer_type
      = Except.ok (FramebufferType.Indexed
          [{ red := 171, green := 171, blue := 171 },
           { red := 171, green := 171, blue := 171 }]) ∧
    (FramebufferTag.mk { typ := 8, size := 36 } 0 0 0 0 0 0 0
        (fun i => if i < 4 then (if i = 0 then 2 else 0) else 171) 4).bufLen = 4 :=
  ⟨rfl, rfl⟩

/-- C3: buffer_type fails exactly when the stored discriminant byte is none
of 0, 1 and 2, and the error then carries the raw discriminant byte; a tag
with discriminant 2 parses to the Text variant whatever its payload holds
(the result does not depend on the buffer at all). -/
theorem C3_unknown_type (t : FramebufferTag) :
    ((∃ e, t.buffer_type = Except.error e)
        ↔ (t.type_no ≠ 0 ∧ t.type_no ≠ 1 ∧ t.type_no ≠ 2)) ∧
    ((t.type_no ≠ 0 ∧ t.type_no ≠ 1 ∧ t.type_no ≠ 2) →
      t.buffer_type = Except.error { val := t.type_no }) ∧
    (t.type_no = 2 → t.buffer_type = Except.ok FramebufferType.Text) := by
  have herr : (t.type_no ≠ 0 ∧ t.type_no ≠ 1 ∧ t.type_no ≠ 2) →
      t.buffer_type = Except.error { val := t.type_no } :=
    fun h => buffer_type_unknown t h.1 h.2.1 h.2.2
  have hok : ¬(t.type_no ≠ 0 ∧ t.type_no ≠ 1 ∧ t.type_no ≠ 2) →
      ∃ v, t.buffer_type = Except.ok v := by
    intro h
    have h3 : t.type_no = 0 ∨ t.type_no = 1 ∨ t.type_no = 2 := by tauto
    unfold FramebufferTag.buffer_type FramebufferTypeId.try_from
    rcases h3 with h | h | h <;> simp [h]
  refine ⟨⟨?_, fun h => ⟨_, herr h⟩⟩, herr, fun h2 => buffer_type_text t h2⟩
  rintro ⟨e, he⟩
  by_contra hcon
  obtain ⟨v, hv⟩ := hok hcon
  rw [he] at hv
  exact Except.noConfusion hv

/-- Witness for C3: the spec's Text example tag (discriminant 2, empty
payload) parses to Text, and a tag with discriminant 7 reports the error
carrying 7. -/
theorem C3_unknown_type_witness :
    (FramebufferTag.mk { typ := 8, size := 32 } 753664 160 80 25 16 2 0
        (fun j => j) 0).buffer_type = Except.ok FramebufferType.Text ∧
    (FramebufferTag.mk { typ := 8, size := 40 } 0 0 0 0 0 7 0
        (fun j => j) 8).buffer_type = Except.error { val := 7 } :=
  ⟨(C3_unknown_type _).2.2 rfl,
   (C3_unknown_type _).2.1 ⟨by decide, by decide, by decide⟩⟩

/-- Witness for C4 at the spec's Text example values. -/
theorem C4_new_roundtrip_witness :
    (FramebufferTag.new 753664 160 80 25 16 FramebufferType.Text).address = 753664 ∧
    (FramebufferTag.new 753664 160 80 25 16 FramebufferType.Text).pitch = 160 ∧
    (FramebufferTag.new 753664 160 80 25 16 FramebufferType.Text).width = 80 ∧
    (FramebufferTag.new 753664 160 80 25 16 FramebufferType.Text).height = 25 ∧
    (FramebufferTag.new 753664 160 80 25 16 FramebufferType.Text).bpp = 16 ∧
    (FramebufferTag.new 753664 160 80 25 16 FramebufferType.Text).buffer_type
      = Except.ok FramebufferType.Text :=
  C4_new_roundtrip 753664 160 80 25 16 FramebufferType.Text (by norm_num)
    (by norm_num) (by norm_num) (by norm_num) trivial

/-- C5: when the discriminant is Indexed and the 4-byte count N is
followed by at least 3·N bytes inside the validated buffer, buffer_type
returns a palette of exactly N (red, green, blue) entries in payload
order, entry i being the tag's own buffer bytes at offsets
4+3i, 4+3i+1, 4+3i+2 (a view over the buffer, no copy), and every
accessed offset lies inside the validated buffer length. -/
theorem C5_indexed_palette (t : FramebufferTag) (N : ℕ) (hty : t.type_no = 0)
    (hm : ∀ i, i < 4 → t.mem i < 256)
    (hN : t.mem 0 + 256 * t.mem 1 + 65536 * t.mem 2 + 16777216 * t.mem 3 = N)
    (hfit : 4 + 3 * N ≤ t.bufLen) :
    t.buffer_type = Except.ok (FramebufferType.Indexed
      ((List.range N).map fun i =>
        { red := t.mem (4 + 3 * i), green := t.mem (4 + 3 * i + 1),
          blue := t.mem (4 + 3 * i + 2) })) ∧
    (∀ i, i < N → 4 + 3 * i + 2 < t.bufLen) := by
  constructor
  · rw [buffer_type_indexed t hty (hm 0 (by norm_num)) (hm 1 (by norm_num))
      (hm 2 (by norm_num)), hN]
    rfl
  · intro i hi
    omega

/-- Witness for C5: count 2 followed by the six bytes 10..60 yields the two
colors (10,20,30) and (40,50,60). -/
theorem C5_indexed_palette_witness :
    (FramebufferTag.mk { typ := 8, size := 42 } 0 0 0 0 0 0 0
        (fun i => [2, 0, 0, 0, 10, 20, 30, 40, 50, 60].getD i 0) 10).buffer_type
      = Except.ok (FramebufferType.Indexed
          [{ red := 10, green := 20, blue := 30 },
           { red := 40, green := 50, blue := 60 }]) := by
  have h := (C5_indexed_palette (FramebufferTag.mk { typ := 8, size := 42 }
    0 0 0 0 0 0 0 (fun i => [2, 0, 0, 0, 10, 20, 30, 40, 50, 60].getD i 0) 10)
    2 rfl (by decide) (by decide) (by decide)).1
  exact h.trans rfl

/-- C6: with the RGB discriminant, buffer_type reads exactly the first six
payload bytes and maps them in order to the position and size of the red,
green and blue field descriptors, with no length prefix. -/
theorem C6_rgb_fields (t : FramebufferTag) (hty : t.type_no = 1) :
    t.buffer_type = Except.ok (FramebufferType.RGB
      { position := t.mem 0, size := t.mem 1 }
      { position := t.mem 2, size := t.mem 3 }
      { position := t.mem 4, size := t.mem 5 }) :=
  buffer_type_rgb t hty

/-- Witness for C6 at payload bytes 1..6. -/
theorem C6_rgb_fields_witness :
    (FramebufferTag.mk { typ := 8, size := 38 } 0 0 0 0 0 1 0
        (fun i => [1, 2, 3, 4, 5, 6].getD i 0) 6).buffer_type
      = Except.ok (FramebufferType.RGB
          { position := 1, size := 2 } { position := 3, size := 4 }
          { position := 5, size := 6 }) := by
  have h := C6_rgb_fields (FramebufferTag.mk { typ := 8, size := 38 } 0 0 0 0 0 1 0
    (fun i => [1, 2, 3, 4, 5, 6].getD i 0) 6) rfl
  exact h.trans rfl

/-- C7 (counterexample): a framebuffer record header with declared size 8
is below the 32-byte metadata size, yet the only MalformedRecord source
(the walker's minimal-size check, which requires only 8 bytes) accepts it,
and dst_len fails its assertion instead — a panic, modelled none, not a
reported MalformedRecord error. -/
theorem C7_counterexample :
    FramebufferTag.dst_len { typ := 8, size := 8 } = none ∧
    walkerMalformed { typ := 8, size := 8 } = false := by
  constructor <;> decide

/-- C7 (amended): METADATA_SIZE is 32 bytes; dst_len returns the declared
size minus 32 whenever the declared size is at least METADATA_SIZE, and
for any smaller declared size it fails its assertion (modelled none — the
function panics rather than reporting an error), independent of buffer
contents. -/
theorem C7_dst_len (h : TagHeader) :
    METADATA_SIZE = 32 ∧
    (METADATA_SIZE ≤ h.size → FramebufferTag.dst_len h = some (h.size - 32)) ∧
    (h.size < METADATA_SIZE → FramebufferTag.dst_len h = none) := by
  have h32 : METADATA_SIZE = 32 := rfl
  refine ⟨h32, fun hle => ?_, fun hlt => ?_⟩
  · unfold FramebufferTag.dst_len
    rw [if_pos hle, h32]
  · unfold FramebufferTag.dst_len
    rw [h32] at hlt
    rw [if_neg (by rw [h32]; omega)]

/-- Witness for C7 at declared sizes 40 and 8. -/
theorem C7_dst_len_witness :
    FramebufferTag.dst_len { typ := 8, size := 40 } = some 8 ∧
    FramebufferTag.dst_len { typ := 8, size := 8 } = none :=
  ⟨(C7_dst_len { typ := 8, size := 40 }).2.1 (by decide),
   (C7_dst_len { typ := 8, size := 8 }).2.2 (by decide)⟩

/-- C8: the metadata accessors depend only on their stored fields —
replacing the discriminant byte, the buffer contents and the buffer length
leaves address, pitch, width, height and bpp unchanged — and the stored
metadata remains readable even when the discriminant is unknown and
buffer_type reports UnknownFramebufferType; buffer_type takes the tag by
shared reference with no interior mutability, so it is embedded as a pure
function and alters no field. -/
theorem C8_metadata_independent (t : FramebufferTag) (v : ℕ) (m : ℕ → ℕ) (l : ℕ) :
    (FramebufferTag.mk t.header t.address t.pitch t.width t.height t.bpp v
        t.reserved m l).address = t.address ∧
    (FramebufferTag.mk t.header t.address t.pitch t.width t.height t.bpp v
        t.reserved m l).pitch = t.pitch ∧
    (FramebufferTag.mk t.header t.address t.pitch t.width t.height t.bpp v
        t.reserved m l).width = t.width ∧
    (FramebufferTag.mk t.header t.address t.pitch t.width t.height t.bpp v
        t.reserved m l).height = t.height ∧
    (FramebufferTag.mk t.header t.address t.pitch t.width t.height t.bpp v
        t.reserved m l).bpp = t.bpp ∧
    (v ≠ 0 → v ≠ 1 → v ≠ 2 →
      (FramebufferTag.mk t.header t.address t.pitch t.width t.height t.bpp v
          t.reserved m l).buffer_type = Except.error { val := v }) :=
  ⟨rfl, rfl, rfl, rfl, rfl, fun h0 h1 h2 => buffer_type_unknown _ h0 h1 h2⟩

/-- Witness for C8 with discriminant 9: the accessors still return the
stored metadata while buffer_type reports the unknown discriminant. -/
theorem C8_metadata_independent_witness :
    (FramebufferTag.mk { typ := 8, size := 32 } 1 2 3 4 5 9 6
        (fun j => j) 0).buffer_type = Except.error { val := 9 } :=
  (C8_metadata_independent (FramebufferTag.mk { typ := 8, size := 32 } 1 2 3 4 5 7 6
    (fun j => j) 0) 9 (fun j => j) 0).2.2.2.2.2 (by decide) (by decide) (by decide)

/-- C9: the byte cursor reads 1-, 2- and 4-byte little-endian integers from
byte-valued memory and advances its offset by exactly the read width, and
current_address is the base pointer plus the current offset. -/
theorem C9_reader_reads (m : ℕ → ℕ) (base off : ℕ) (hm : ∀ i, m i < 256) :
    Reader.read_u8 { mem := m, base := base, off := off }
      = (m (base + off), { mem := m, base := base, off := off + 1 }) ∧
    Reader.read_u16 { mem := m, base := base, off := off }
      = (m (base + off) + 256 * m (base + off + 1),
          { mem := m, base := base, off := off + 2 }) ∧
    Reader.read_u32 { mem := m, base := base, off := off }
      = (m (base + off) + 256 * m (base + off + 1) + 65536 * m (base + off + 2)
            + 16777216 * m (base + off + 3),
          { mem := m, base := base, off := off + 4 }) ∧
    Reader.current_address { mem := m, base := base, off := off } = base + off :=
  ⟨Reader.read_u8_eq m base off,
   Reader.read_u16_eq m base off (hm _),
   Reader.read_u32_eq m base off (hm _) (hm _) (hm _),
   rfl⟩

/-- Witness for C9 over the memory i % 256 at base 100, offset 4. -/
theorem C9_reader_reads_witness :
    Reader.read_u16 { mem := fun i => i % 256, base := 100, off := 4 }
      = (26984, { mem := fun i => i % 256, base := 100, off := 6 }) := by
  have h := (C9_reader_reads (fun i => i % 256) 100 4
    (fun i => Nat.mod_lt i (by norm_num))).2.1
  norm_num at h
  exact h

/-- C10: FramebufferTag equality compares the header, address, pitch,
width, height, bpp, discriminant byte and the validated buffer bytes, and
nothing else; in particular two tags that differ only in the reserved
field compare equal. -/
theorem C10_eq_ignores_reserved (a b : FramebufferTag) (r : ℕ) :
    (FramebufferTag.beq a b = true ↔
      (a.header = b.header ∧ a.address = b.address ∧ a.pitch = b.pitch ∧
       a.width = b.width ∧ a.height = b.height ∧ a.bpp = b.bpp ∧
       a.type_no = b.type_no ∧ a.bufferBytes = b.bufferBytes)) ∧
    FramebufferTag.beq a { a with reserved := r } = true := by
  constructor
  · unfold FramebufferTag.beq
    simp [and_assoc]
  · unfold FramebufferTag.beq
    simp [FramebufferTag.bufferBytes]
